import Mathlib

/-!
Verification of the OPC/OOXML package-validation scripts of the
`comparador-de-carpetas` repository.

The Python sources are shallowly embedded:
  * `posixpath` primitives (`join`, `normpath`, `dirname`, `basename`,
    `str.endswith`, `str.lstrip`) are modelled over `List Char` with
    `String` wrappers, following CPython's `posixpath.py`;
  * parsed XML documents (`xml.etree.ElementTree`) are a tree of
    `Element` values; a parse is an `Except String Element` input;
  * the filesystem is an existence oracle `String → Bool`, and `os.walk`
    is an input list of `(directory, files)` entries;
  * console diagnostics appended to the validators' error lists become
    constructors of per-validator diagnostic types, carrying the same
    data as the interpolated messages.
-/

/-! ## posixpath primitives over `List Char` -/

/-- CPython `posixpath.join(a, b)` for two components: if `b` starts with
the separator it replaces the path; otherwise it is appended, inserting a
separator unless `a` is empty or already ends with one. -/
def pjoinL (a b : List Char) : List Char :=
  if b.head? = some '/' then b
  else if a = [] ∨ a.getLast? = some '/' then a ++ b
  else a ++ '/' :: b

/-- Everything after the last separator (CPython `posixpath.basename`). -/
def basenameL (p : List Char) : List Char :=
  (p.reverse.takeWhile (· ≠ '/')).reverse

/-- CPython `posixpath.dirname`: the prefix up to and including the last
separator, then trailing separators stripped unless the head is all
separators. -/
def dirnameL (p : List Char) : List Char :=
  let head := (p.reverse.dropWhile (· ≠ '/')).reverse
  if head ≠ [] ∧ head.any (· ≠ '/') then
    (head.reverse.dropWhile (· = '/')).reverse
  else head

/-- Python `str.endswith` on character lists. -/
def endsWithL (p suffix : List Char) : Bool :=
  suffix.isSuffixOf p

/-- Python `str.startswith` on character lists. -/
def startsWithL (p pre : List Char) : Bool :=
  pre.isPrefixOf p

/-- Python `str.lstrip(chars)` on character lists. -/
def lstripL (p : List Char) (chars : List Char) : List Char :=
  p.dropWhile (fun c => chars.contains c)

/-- Split a character list on `/`, CPython `str.split('/')`. -/
def splitSlashL : List Char → List (List Char)
  | [] => [[]]
  | c :: rest =>
    let r := splitSlashL rest
    if c = '/' then [] :: r
    else
      match r with
      | h :: t => (c :: h) :: t
      | [] => [[c]]

/-- `'/'.join(comps)`. -/
def joinSlashL : List (List Char) → List Char
  | [] => []
  | [c] => c
  | c :: rest => c ++ '/' :: joinSlashL rest

/-- The component-processing loop of CPython `posixpath.normpath`: the
accumulator holds the retained components in reverse order. -/
def normLoop (isAbs : Bool) : List (List Char) → List (List Char) → List (List Char)
  | acc, [] => acc.reverse
  | acc, comp :: rest =>
    if comp = [] ∨ comp = ['.'] then normLoop isAbs acc rest
    else if comp ≠ ['.', '.'] ∨ (¬ isAbs ∧ acc = []) ∨ acc.head? = some ['.', '.'] then
      normLoop isAbs (comp :: acc) rest
    else
      match acc with
      | _ :: accTail => normLoop isAbs accTail rest
      | [] => normLoop isAbs [] rest

/-- CPython `posixpath.normpath`. -/
def normpathL (p : List Char) : List Char :=
  if p = [] then ['.']
  else
    let isAbs := startsWithL p ['/']
    let slashes : Nat :=
      if startsWithL p ['/', '/'] ∧ ¬ startsWithL p ['/', '/', '/'] then 2
      else if isAbs then 1 else 0
    let comps := normLoop isAbs [] (splitSlashL p)
    let out := List.replicate slashes '/' ++ joinSlashL comps
    if out = [] then ['.'] else out

/-! ## `String` wrappers -/

def pjoinS (a b : String) : String := ⟨pjoinL a.data b.data⟩

def basenameS (p : String) : String := ⟨basenameL p.data⟩

def dirnameS (p : String) : String := ⟨dirnameL p.data⟩

def normpathS (p : String) : String := ⟨normpathL p.data⟩

def endsWithS (p suffix : String) : Bool := endsWithL p.data suffix.data

def startsWithS (p pre : String) : Bool := startsWithL p.data pre.data

/-- Python `target.lstrip("/")`. -/
def lstripSlashS (p : String) : String := ⟨lstripL p.data ['/']⟩

/-- Python `part_name.lstrip("/\\")`. -/
def lstripSlashBackS (p : String) : String := ⟨lstripL p.data ['/', '\\']⟩

/-! ## Parsed XML documents (`xml.etree.ElementTree` model) -/

/-- A parsed XML element: full tag (with any `\x7bnamespace\x7d` prefix,
as ElementTree stores it), attribute list, children in document order. -/
inductive Element where
  | mk (tag : String) (attrs : List (String × String)) (children : List Element)

def Element.tag : Element → String
  | .mk t _ _ => t

def Element.attrs : Element → List (String × String)
  | .mk _ a _ => a

def Element.children : Element → List Element
  | .mk _ _ c => c

/-- `element.get(name)`: attribute lookup, `None` when absent. -/
def Element.get (e : Element) (name : String) : Option String :=
  (e.attrs.find? (fun kv => kv.1 == name)).map (fun kv => kv.2)

mutual

/-- All proper descendants of an element in document order, the matches
of `root.findall(".//…")`. -/
def Element.descendants : Element → List Element
  | .mk _ _ children => descendantsAll children

def descendantsAll : List Element → List Element
  | [] => []
  | e :: es => e :: Element.descendants e ++ descendantsAll es

end

/-- `root.iter()`: the element itself followed by its descendants. -/
def Element.iterAll (e : Element) : List Element :=
  e :: e.descendants

/-- Python `element.tag.split("}", maxsplit=1)[-1]`: the local tag name
after the first `\x7d`, or the full tag when no namespace brace occurs. -/
def localName (tag : String) : String :=
  let rest := tag.data.dropWhile (· ≠ '}')
  match rest with
  | [] => tag
  | _ :: t => ⟨t⟩

/-- Python truthiness of an optional string: `not s` holds for `None`
and for the empty string. -/
def pyFalsy : Option String → Bool
  | none => true
  | some s => s == ""

/-! ## `revisar_rel.py` -/

/-- `resolve_target_path(rels_path, target)`: base directory is the
directory of the `.rels` file, or its parent when that directory (as a
string) ends with `"_rels"`; the target is joined and normalized. -/
def resolve_target_path (rels_path target : String) : String :=
  let rels_dir := dirnameS rels_path
  let base_dir := if endsWithS rels_dir "_rels" then dirnameS rels_dir else rels_dir
  normpathS (pjoinS base_dir target)

/-- The full relationship tag searched by
`root.findall(".//\x7bns\x7dRelationship")`. -/
def NS_REL_TAG : String :=
  "\x7bhttp://schemas.openxmlformats.org/package/2006/relationships\x7dRelationship"

/-- The `<Relationship>` elements extracted from a parsed `.rels` root. -/
def relationshipsOf (root : Element) : List Element :=
  root.descendants.filter (fun e => e.tag == NS_REL_TAG)

/-- Diagnostics appended to the `errors` list of `validate_rels_file`,
one constructor per `errors.append(...)` site. -/
inductive RelDiag where
  | errorXmlMalformed (msg : String)
  | errorNoId
  | errorDupId (id : String)
  | errorNoType (id : Option String)
  | errorNoTarget (id : Option String)
  | errorFileMissing (resolved : String)
  | okNoErrors
deriving DecidableEq

def RelDiag.isError : RelDiag → Bool
  | .okNoErrors => false
  | _ => true

/-- The Id check of one relationship: error when the Id is falsy, error
when it repeats an already-seen Id. -/
def relIdDiags (rid : Option String) (ids : List String) : List RelDiag :=
  match rid with
  | none => [.errorNoId]
  | some r =>
    if r = "" then [.errorNoId]
    else if ids.contains r then [.errorDupId r] else []

/-- The seen-Id set after one relationship. -/
def relIdsAfter (rid : Option String) (ids : List String) : List String :=
  match rid with
  | none => ids
  | some r =>
    if r = "" then ids
    else if ids.contains r then ids else ids ++ [r]

/-- The Type check of one relationship. -/
def relTypeDiags (rid rtype : Option String) : List RelDiag :=
  if pyFalsy rtype then [.errorNoType rid] else []

/-- The Target check of one relationship: error when falsy, otherwise
resolve it and error when the resolved file does not exist. -/
def relTargetDiags (ex : String → Bool) (path : String) (rid rtarget : Option String) :
    List RelDiag :=
  match rtarget with
  | none => [.errorNoTarget rid]
  | some t =>
    if t = "" then [.errorNoTarget rid]
    else
      let resolved := resolve_target_path path t
      if ex resolved then [] else [.errorFileMissing resolved]

/-- The three independent per-relationship check blocks, in the order the
Python loop body appends them. -/
def relElemDiags (ex : String → Bool) (path : String) (rel : Element) (ids : List String) :
    List RelDiag :=
  relIdDiags (rel.get "Id") ids
    ++ relTypeDiags (rel.get "Id") (rel.get "Type")
    ++ relTargetDiags ex path (rel.get "Id") (rel.get "Target")

/-- The `for idx, rel in enumerate(rels)` loop of `validate_rels_file`,
threading the mutable `ids` set. -/
def validateRelsLoop (ex : String → Bool) (path : String) :
    List Element → List String → List RelDiag
  | [], _ => []
  | rel :: rest, ids =>
    relElemDiags ex path rel ids
      ++ validateRelsLoop ex path rest (relIdsAfter (rel.get "Id") ids)

/-- `validate_rels_file(path)`: the returned `errors` list. A parse error
yields a single error and returns immediately; otherwise every
`<Relationship>` is checked and an `[OK]` entry is synthesized when the
error list is empty. -/
def validate_rels_file (ex : String → Bool) (path : String)
    (parsed : Except String Element) : List RelDiag :=
  match parsed with
  | .error e => [.errorXmlMalformed e]
  | .ok root =>
    let errors := validateRelsLoop ex path (relationshipsOf root) []
    if errors = [] then [.okNoErrors] else errors

/-- The `for path in paths: validate_rels_file(path)` loop of
`revisar_rel.main`: each selected file is validated independently. -/
def relsValidateAll (ex : String → Bool)
    (inputs : List (String × Except String Element)) : List (List RelDiag) :=
  inputs.map (fun pr => validate_rels_file ex pr.1 pr.2)

/-! ## `revisar_content_types.py` -/

/-- `resolve_part_path(base_dir, part_name)`. -/
def resolve_part_path (base_dir part_name : String) : String :=
  normpathS (pjoinS base_dir (lstripSlashBackS part_name))

def NS_TYPES_DEFAULT_TAG : String :=
  "\x7bhttp://schemas.openxmlformats.org/package/2006/content-types\x7dDefault"

def NS_TYPES_OVERRIDE_TAG : String :=
  "\x7bhttp://schemas.openxmlformats.org/package/2006/content-types\x7dOverride"

/-- Diagnostics appended to the `errors` list of
`validate_content_types`, one constructor per append site. -/
inductive CtDiag where
  | errorXmlMalformed (msg : String)
  | errorNoExtension
  | errorDupExtension (ext : String)
  | errorNoContentTypeDefault
  | errorNoPartName
  | errorDupPartName (partName : String)
  | errorFileMissing (resolved : String)
  | errorNoContentTypeOverride
  | okNoErrors
deriving DecidableEq

def CtDiag.isError : CtDiag → Bool
  | .okNoErrors => false
  | _ => true

/-- The Extension check of one `<Default>` element. -/
def defExtDiags (ext : Option String) (seen : List String) : List CtDiag :=
  match ext with
  | none => [.errorNoExtension]
  | some e =>
    if e = "" then [.errorNoExtension]
    else if seen.contains e then [.errorDupExtension e] else []

/-- The seen-Extension set after one `<Default>` element. -/
def defExtSeenAfter (ext : Option String) (seen : List String) : List String :=
  match ext with
  | none => seen
  | some e =>
    if e = "" then seen
    else if seen.contains e then seen else seen ++ [e]

/-- The ContentType check of one `<Default>` element. -/
def defCtDiags (ct : Option String) : List CtDiag :=
  if pyFalsy ct then [.errorNoContentTypeDefault] else []

/-- The `<Default>` loop of `validate_content_types`. -/
def ctDefaultsLoop : List Element → List String → List CtDiag
  | [], _ => []
  | d :: rest, seen =>
    defExtDiags (d.get "Extension") seen ++ defCtDiags (d.get "ContentType")
      ++ ctDefaultsLoop rest (defExtSeenAfter (d.get "Extension") seen)

/-- The PartName check of one `<Override>` element: presence, uniqueness
among seen PartNames, and — whenever the PartName is present — the
resolved-existence check, run even for duplicates. -/
def ovrPnDiags (ex : String → Bool) (base_dir : String) (pn : Option String)
    (seen : List String) : List CtDiag :=
  match pn with
  | none => [.errorNoPartName]
  | some p =>
    if p = "" then [.errorNoPartName]
    else
      (if seen.contains p then [.errorDupPartName p] else [])
        ++ (let resolved := resolve_part_path base_dir p
            if ex resolved then [] else [.errorFileMissing resolved])

/-- The seen-PartName set after one `<Override>` element. -/
def ovrSeenAfter (pn : Option String) (seen : List String) : List String :=
  match pn with
  | none => seen
  | some p =>
    if p = "" then seen
    else if seen.contains p then seen else seen ++ [p]

/-- The ContentType check of one `<Override>` element. -/
def ovrCtDiags (ct : Option String) : List CtDiag :=
  if pyFalsy ct then [.errorNoContentTypeOverride] else []

/-- The `<Override>` loop of `validate_content_types`. -/
def ctOverridesLoop (ex : String → Bool) (base_dir : String) :
    List Element → List String → List CtDiag
  | [], _ => []
  | o :: rest, seen =>
    ovrPnDiags ex base_dir (o.get "PartName") seen ++ ovrCtDiags (o.get "ContentType")
      ++ ctOverridesLoop ex base_dir rest (ovrSeenAfter (o.get "PartName") seen)

/-- `root.findall(f"\x7bNS_TYPES\x7dDefault")`: `findall` with a plain
tag matches direct children only. -/
def defaultsOf (root : Element) : List Element :=
  root.children.filter (fun e => e.tag == NS_TYPES_DEFAULT_TAG)

/-- `root.findall(f"\x7bNS_TYPES\x7dOverride")`. -/
def overridesOf (root : Element) : List Element :=
  root.children.filter (fun e => e.tag == NS_TYPES_OVERRIDE_TAG)

/-- `validate_content_types(path, base_dir)`: the returned `errors`
list. -/
def validate_content_types (ex : String → Bool) (base_dir : String)
    (parsed : Except String Element) : List CtDiag :=
  match parsed with
  | .error e => [.errorXmlMalformed e]
  | .ok root =>
    let errors :=
      ctDefaultsLoop (defaultsOf root) [] ++ ctOverridesLoop ex base_dir (overridesOf root) []
    if errors = [] then [.okNoErrors] else errors

/-! ## `inspector_temas_openxml.py` -/

/-- `resolve_relationship_target(rels_path, target, package_root)`:
like `resolve_target_path`, but a `/`-prefixed target is resolved against
the package root (when truthy) after `lstrip("/")`. -/
def resolve_relationship_target (rels_path target : String)
    (package_root : Option String) : String :=
  let rels_dir := dirnameS rels_path
  let base_dir := if endsWithS rels_dir "_rels" then dirnameS rels_dir else rels_dir
  if startsWithS target "/" then
    match package_root with
    | some r =>
      if r = "" then normpathS (pjoinS base_dir (lstripSlashS target))
      else normpathS (pjoinS r (lstripSlashS target))
    | none => normpathS (pjoinS base_dir (lstripSlashS target))
  else normpathS (pjoinS base_dir target)

def THEME_FILE_NAME : String := "theme1.xml"

def VARIANT_MANAGER_FILE_NAMES : List String :=
  ["themeVariantManager.xml", "themeVarianManager.xml"]

/-- The `ThemeFiles` dataclass. -/
structure ThemeFiles where
  theme_path : String
  variant_manager_path : Option String
deriving DecidableEq

/-- The `candidate_paths` list comprehension of `find_theme_files`:
both file names under `<themeFolder>/themeVariants`, then both directly
under `<themeFolder>`, then both under `<packageRoot>/themeVariants`. -/
def variantCandidates (base_dir current_root : String) : List String :=
  VARIANT_MANAGER_FILE_NAMES.map
      (fun fn => pjoinS (pjoinS current_root "themeVariants") fn)
    ++ VARIANT_MANAGER_FILE_NAMES.map (fun fn => pjoinS current_root fn)
    ++ VARIANT_MANAGER_FILE_NAMES.map
      (fun fn => pjoinS (pjoinS base_dir "themeVariants") fn)

/-- `find_theme_files(base_dir)` over the result of `os.walk(base_dir)`,
given as a list of `(current_root, files)` entries and an existence
oracle `ex`: keep walk entries named `theme` whose parent is named
`theme` and whose file list holds `theme1.xml`; the variant manager is
the first existing candidate path, if any. -/
def find_theme_files (ex : String → Bool) (base_dir : String)
    (walkEntries : List (String × List String)) : List ThemeFiles :=
  walkEntries.filterMap fun entry =>
    if basenameS entry.1 ≠ "theme" then none
    else if basenameS (dirnameS entry.1) ≠ "theme" then none
    else if ¬ entry.2.contains THEME_FILE_NAME then none
    else
      some ⟨pjoinS entry.1 THEME_FILE_NAME,
            (variantCandidates base_dir entry.1).find? (fun p => ex p)⟩

/-- A `themeFamily` record extracted by `extract_theme_families`. -/
structure ThemeFamily where
  name : Option String
  id : Option String
  vid : Option String
  source : String
deriving DecidableEq

/-- A `themeVariant` record extracted by `extract_variant_vids`. -/
structure ThemeVariant where
  name : Option String
  vid : Option String
  rel_id : Option String
deriving DecidableEq

/-- The record built for one matching `<themeFamily>` element. -/
def famOfElement (file_path : String) (el : Element) : ThemeFamily :=
  ⟨el.get "name", el.get "id", el.get "vid", file_path⟩

/-- `extract_theme_families(file_path)`: a `ET.ParseError` raises
`SystemExit` (modelled as `Except.error` carrying the exit message);
otherwise every element of `root.iter()` whose local tag name is
`themeFamily` yields a record. -/
def extract_theme_families (file_path : String) (parsed : Except String Element) :
    Except String (List ThemeFamily) :=
  match parsed with
  | .error exc => .error ("No se pudo parsear " ++ file_path ++ ": " ++ exc)
  | .ok root =>
    .ok (((root.iterAll.filter (fun el => localName el.tag == "themeFamily"))).map
      (famOfElement file_path))

def NS_OFFICEDOC_R_ID : String :=
  "\x7bhttp://schemas.openxmlformats.org/officeDocument/2006/relationships\x7did"

/-- `extract_variant_vids(file_path)`: same shape for `<themeVariant>`
elements of `themeVariantManager.xml`. -/
def extract_variant_vids (file_path : String) (parsed : Except String Element) :
    Except String (List ThemeVariant) :=
  match parsed with
  | .error exc => .error ("No se pudo parsear " ++ file_path ++ ": " ++ exc)
  | .ok root =>
    .ok ((root.iterAll.filter (fun el => localName el.tag == "themeVariant")).map
      (fun el => ⟨el.get "name", el.get "vid", el.get NS_OFFICEDOC_R_ID⟩))

/-- The theme-collection loop of `inspector_temas_openxml.main`:
`all_theme_families.extend(extract_theme_families(...))` for each theme
file in turn; an uncaught `SystemExit` from any part propagates and ends
the whole run. -/
def themePartsFamilies (inputs : List (String × Except String Element)) :
    Except String (List ThemeFamily) :=
  match inputs with
  | [] => .ok []
  | (p, parsed) :: rest => do
    let fams ← extract_theme_families p parsed
    let more ← themePartsFamilies rest
    pure (fams ++ more)

/-- Diagnostics printed by `validate_variant_vids`, one constructor per
print site. -/
inductive VidDiag where
  | infoNoVariants
  | errorNotFound (vid : Option String)
  | errorAmbiguous (vid : Option String) (sources : List String)
  | okMatched (vid : Option String) (name : Option String) (source : String)
deriving DecidableEq

def VidDiag.isError : VidDiag → Bool
  | .errorNotFound _ => true
  | .errorAmbiguous _ _ => true
  | _ => false

/-- `family_by_vid.get(vid, [])` after grouping with
`setdefault(...).append(...)`: the families whose `vid` equals the key,
in extraction order. -/
def lookupVid (fams : List ThemeFamily) (vid : Option String) : List ThemeFamily :=
  fams.filter (fun f => f.vid == vid)

/-- The per-variant body of `validate_variant_vids`: no linked family is
an error, more than one is an ambiguity error naming the sources, and
exactly one is the OK naming the family's name and source. -/
def classifyVariant (fams : List ThemeFamily) (v : ThemeVariant) : VidDiag :=
  match lookupVid fams v.vid with
  | [] => .errorNotFound v.vid
  | [f] => .okMatched v.vid f.name f.source
  | f :: g :: rest => .errorAmbiguous v.vid ((f :: g :: rest).map (fun h => h.source))

/-- `validate_variant_vids(variants, theme_families)`: an informational
line when there are no variants, else one diagnostic per variant. -/
def validate_variant_vids (variants : List ThemeVariant)
    (fams : List ThemeFamily) : List VidDiag :=
  if variants.isEmpty then [.infoNoVariants]
  else variants.map (classifyVariant fams)

/-- Diagnostics printed by `validate_theme_ids`, one constructor per
print site; the per-group detail lines carry no `[ERROR]` tag of their
own. -/
inductive IdDiag where
  | infoNoFamilies
  | okAllSame (id : Option String)
  | errorDistinctIds
  | groupDetail (id : Option String) (sources : List String)
deriving DecidableEq

def IdDiag.isError : IdDiag → Bool
  | .errorDistinctIds => true
  | _ => false

/-- The key set of `sources_by_id` in insertion order: the distinct
`id` values in order of first occurrence. -/
def distinctIds (fams : List ThemeFamily) : List (Option String) :=
  fams.foldl (fun acc f => if acc.contains f.id then acc else acc ++ [f.id]) []

/-- `sources_by_id[id]`: the source labels of the families carrying this
id, an empty source shown as `(origen desconocido)` by the `or` default. -/
def sourcesForId (fams : List ThemeFamily) (id : Option String) : List String :=
  (fams.filter (fun f => f.id == id)).map
    (fun f => if f.source = "" then "(origen desconocido)" else f.source)

/-- `validate_theme_ids(theme_families)`: informational when empty, OK
when a single distinct id exists, else one `[ERROR]` header followed by
one detail line per id group naming its member sources. -/
def validate_theme_ids (fams : List ThemeFamily) : List IdDiag :=
  if fams.isEmpty then [.infoNoFamilies]
  else
    let keys := distinctIds fams
    if keys.length = 1 then [.okAllSame (keys.headD none)]
    else .errorDistinctIds :: keys.map (fun i => .groupDetail i (sourcesForId fams i))

/-! ## Spec-side formulations (written from the specification's words,
for comparison with the embedded code) -/

/-- Spec wording for theme-folder qualification: "its name is `theme`
AND its parent directory's name is also `theme` AND it contains a file
named `theme1.xml`". -/
def specQualifies (entry : String × List String) : Bool :=
  basenameS entry.1 == "theme" && basenameS (dirnameS entry.1) == "theme"
    && entry.2.contains "theme1.xml"

/-- Spec wording for the variant-manager search locations, "in priority
order: `<themeFolder>/themeVariants/`, `<themeFolder>/`,
`<packageRoot>/themeVariants/`". -/
def specVariantLocations (packageRoot themeFolder : String) : List String :=
  [pjoinS themeFolder "themeVariants", themeFolder, pjoinS packageRoot "themeVariants"]

/-- Spec wording: at each location the canonical file name, "accepting a
known alternate misspelling of the filename as an equivalent". -/
def specVariantCandidates (packageRoot themeFolder : String) : List String :=
  (specVariantLocations packageRoot themeFolder).flatMap
    (fun loc => [pjoinS loc "themeVariantManager.xml", pjoinS loc "themeVarianManager.xml"])

/-- Spec wording: "the first candidate that exists on disk is selected,
else the field is absent". -/
def specVariantManager (ex : String → Bool) (packageRoot themeFolder : String) :
    Option String :=
  (specVariantCandidates packageRoot themeFolder).find? (fun p => ex p)

/-- The discovery contract as the specification words it. -/
def discoverSpec (ex : String → Bool) (packageRoot : String)
    (walkEntries : List (String × List String)) : List ThemeFiles :=
  walkEntries.filterMap fun entry =>
    if specQualifies entry then
      some ⟨pjoinS entry.1 "theme1.xml", specVariantManager ex packageRoot entry.1⟩
    else none

/-- All per-relationship checks pass for one `<Relationship>` element:
a non-falsy `Id`, a non-falsy `Type`, and a non-falsy `Target` whose
resolved path exists. -/
def relAllOk (ex : String → Bool) (path : String) (rel : Element) : Prop :=
  (∃ r, rel.get "Id" = some r ∧ r ≠ "") ∧
  pyFalsy (rel.get "Type") = false ∧
  (∃ t, rel.get "Target" = some t ∧ t ≠ "" ∧ ex (resolve_target_path path t) = true)

/-- All checks pass for one `<Default>` element. -/
def defAllOk (d : Element) : Prop :=
  (∃ e, d.get "Extension" = some e ∧ e ≠ "") ∧
  pyFalsy (d.get "ContentType") = false

/-- All checks pass for one `<Override>` element. -/
def ovrAllOk (ex : String → Bool) (base_dir : String) (o : Element) : Prop :=
  (∃ p, o.get "PartName" = some p ∧ p ≠ "" ∧ ex (resolve_part_path base_dir p) = true) ∧
  pyFalsy (o.get "ContentType") = false

/-! ## Concrete inputs used by the witnesses and counterexamples -/

/-- A well-formed `theme1.xml` root carrying one `themeFamily`. -/
def egThemeRootB : Element :=
  .mk "\x7bhttp://schemas.openxmlformats.org/drawingml/2006/main\x7dtheme" [] [
    .mk "\x7bhttp://schemas.openxmlformats.org/drawingml/2006/main\x7dextLst" [] [
      .mk "\x7bhttp://schemas.microsoft.com/office/thememl/2012/main\x7dthemeFamily"
        [("name", "Office"), ("id", "\x7bAAA\x7d"), ("vid", "\x7bV1\x7d")] []]]

/-- An `<Override>` element with PartName `/ppt/a.xml`. -/
def ovrElemA : Element :=
  .mk NS_TYPES_OVERRIDE_TAG
    [("PartName", "/ppt/a.xml"), ("ContentType", "application/xml")] []

/-- A second `<Override>` element with the same PartName. -/
def ovrElemB : Element :=
  .mk NS_TYPES_OVERRIDE_TAG
    [("PartName", "/ppt/a.xml"), ("ContentType", "application/vnd.test")] []

/-- A `themeVariant` that carries `vid="9"`. -/
def vOrphan : ThemeVariant := ⟨some "Variante 9", some "9", some "rId9"⟩

/-- A `themeVariant` with no `vid` attribute. -/
def vNoVid : ThemeVariant := ⟨some "Variante", none, some "rId1"⟩

/-- A single theme family lacking a `vid` attribute. -/
def famNoVid : ThemeFamily := ⟨some "Base", some "\x7bID\x7d", none, "/p/theme/theme/theme1.xml"⟩

/-- Three extracted families with ids A, A, B from three parts. -/
def famsAAB : List ThemeFamily :=
  [⟨some "Office", some "\x7bA\x7d", some "\x7bV1\x7d", "/p1/theme/theme/theme1.xml"⟩,
   ⟨some "Office", some "\x7bA\x7d", some "\x7bV2\x7d", "/p2/theme/theme/theme1.xml"⟩,
   ⟨some "Office", some "\x7bB\x7d", some "\x7bV3\x7d", "/p3/theme/theme/theme1.xml"⟩]

/-- A relationship element lacking a `Type` attribute. -/
def relNoType : Element :=
  .mk NS_REL_TAG [("Id", "rId1"), ("Target", "../theme/theme1.xml")] []

/-! ## Helper lemmas -/

/-- A string whose basename is `_rels` itself ends with `_rels`. -/
theorem endsWith_of_basename (d : List Char)
    (h : basenameL d = ['_', 'r', 'e', 'l', 's']) :
    endsWithL d ['_', 'r', 'e', 'l', 's'] = true := by
  have h2 : d.reverse.takeWhile (· ≠ '/') = ['s', 'l', 'e', 'r', '_'] := by
    have h3 := congrArg List.reverse h
    simpa [basenameL] using h3
  show (['_', 'r', 'e', 'l', 's'] : List Char).reverse.isPrefixOf d.reverse = true
  rw [ List.isPrefixOf_iff_prefix]
  show ['s', 'l', 'e', 'r', '_'] <+: d.reverse
  rw [← h2]
  exact List.takeWhile_prefix _

/-- String-level version of `endsWith_of_basename`. -/
theorem endsWithS_of_basenameS (d : String) (h : basenameS d = "_rels") :
    endsWithS d "_rels" = true := by
  have hL : basenameL d.data = ['_', 'r', 'e', 'l', 's'] := congrArg String.data h
  exact endsWith_of_basename d.data hL

/-! ## C1 -/

/-- Claim C1: for a `/`-prefixed raw target and a truthy package root,
`resolve_relationship_target` returns the normalized join of the package
root with the target stripped of its leading separator, and the result
does not depend on the owning part's path. -/
theorem c1_absolute_target (p t r : String)
    (ht : startsWithS t "/" = true) (hr : r ≠ "") :
    resolve_relationship_target p t (some r) = normpathS (pjoinS r (lstripSlashS t))
      ∧ ∀ q : String,
          resolve_relationship_target q t (some r) = resolve_relationship_target p t (some r) := by
  constructor
  · simp [resolve_relationship_target, ht, hr]
  · intro q
    simp [resolve_relationship_target, ht, hr]

/-- Witness for C1 at a concrete owning part, target and package root. -/
theorem c1_witness :
    resolve_relationship_target "/pkg/theme/theme/_rels/a.rels" "/media/image1.png"
        (some "/pkg")
      = normpathS (pjoinS "/pkg" (lstripSlashS "/media/image1.png"))
    ∧ resolve_relationship_target "/somewhere/else/b.rels" "/media/image1.png" (some "/pkg")
      = resolve_relationship_target "/pkg/theme/theme/_rels/a.rels" "/media/image1.png"
          (some "/pkg") := by
  have h := c1_absolute_target "/pkg/theme/theme/_rels/a.rels" "/media/image1.png" "/pkg"
    (by decide) (by decide)
  exact ⟨h.1, h.2 "/somewhere/else/b.rels"⟩

/-! ## C2 -/

/-- Counterexample to C2 as stated: for the owning part
`/pkg/x_rels/a.rels` the containing directory `/pkg/x_rels` is not named
`_rels`, so the claim predicts resolution against `/pkg/x_rels`; the code
keys the exception on the string suffix `_rels` and resolves against
`/pkg` instead. -/
theorem c2_counterexample :
    basenameS (dirnameS "/pkg/x_rels/a.rels") ≠ "_rels"
      ∧ resolve_target_path "/pkg/x_rels/a.rels" "b.xml"
          ≠ normpathS (pjoinS (dirnameS "/pkg/x_rels/a.rels") "b.xml") := by
  decide

/-- C2 amended: for every owning part `p`, relative resolution uses the
directory of `p` as base except when that directory, as a string, ends
with `"_rels"` (not only when its name is exactly `_rels`), in which
case the directory's parent is the base; in particular a directory named
exactly `_rels` does get the parent base, and
`resolve_relationship_target` behaves identically on relative targets. -/
theorem c2_rels_base (p t : String) :
    resolve_target_path p t
        = normpathS (pjoinS
            (if endsWithS (dirnameS p) "_rels" then dirnameS (dirnameS p) else dirnameS p) t)
      ∧ (basenameS (dirnameS p) = "_rels" →
          resolve_target_path p t = normpathS (pjoinS (dirnameS (dirnameS p)) t))
      ∧ (startsWithS t "/" = false →
          resolve_relationship_target p t none
            = normpathS (pjoinS
                (if endsWithS (dirnameS p) "_rels" then dirnameS (dirnameS p) else dirnameS p)
                t)) := by
  refine ⟨rfl, ?_, ?_⟩
  · intro h
    have he := endsWithS_of_basenameS (dirnameS p) h
    simp [resolve_target_path, he]
  · intro h
    simp [resolve_relationship_target, h]

/-- Witness for C2 amended at a part whose directory is exactly `_rels`. -/
theorem c2_witness :
    basenameS (dirnameS "/pkg/theme/_rels/a.rels") = "_rels"
      ∧ resolve_target_path "/pkg/theme/_rels/a.rels" "../media/x.png"
          = normpathS (pjoinS (dirnameS (dirnameS "/pkg/theme/_rels/a.rels")) "../media/x.png") := by
  refine ⟨by decide, ?_⟩
  exact (c2_rels_base "/pkg/theme/_rels/a.rels" "../media/x.png").2.1 (by decide)

/-! ## C3 -/

/-- Counterexample to C3 as stated: in the theme-inspection pipeline a
malformed part makes `extract_theme_families` raise `SystemExit`, which
propagates out of the whole collection loop — the sibling well-formed
part `b.xml` is never reflected in any output, so a parse error does
abort the whole run there. -/
theorem c3_counterexample :
    extract_theme_families "a.xml" (Except.error "syntax error: line 1, column 0")
        = Except.error "No se pudo parsear a.xml: syntax error: line 1, column 0"
      ∧ themePartsFamilies
            [("a.xml", Except.error "syntax error: line 1, column 0"),
             ("b.xml", Except.ok egThemeRootB)]
          = Except.error "No se pudo parsear a.xml: syntax error: line 1, column 0"
      ∧ extract_theme_families "b.xml" (Except.ok egThemeRootB)
          = Except.ok [⟨some "Office", some "\x7bAAA\x7d", some "\x7bV1\x7d", "b.xml"⟩] := by
  refine ⟨rfl, rfl, rfl⟩

/-- C3 amended: in the `.rels` and `[Content_Types].xml` validators a
malformed part yields exactly one ERROR diagnostic and aborts only that
part (the batch loop still validates every sibling), but in the theme
pipeline a parse error propagates as `SystemExit` and aborts the whole
run. -/
theorem c3_parse_error_locality (ex : String → Bool) (p b e : String)
    (rest rest2 : List (String × Except String Element)) :
    validate_rels_file ex p (Except.error e) = [RelDiag.errorXmlMalformed e]
      ∧ relsValidateAll ex ((p, Except.error e) :: rest)
          = [RelDiag.errorXmlMalformed e] :: relsValidateAll ex rest
      ∧ validate_content_types ex b (Except.error e) = [CtDiag.errorXmlMalformed e]
      ∧ themePartsFamilies ((p, Except.error e) :: rest2)
          = Except.error ("No se pudo parsear " ++ p ++ ": " ++ e) := by
  refine ⟨rfl, rfl, rfl, rfl⟩

/-! ## C4 -/

/-- The comprehension-built candidate list equals the spec's
location-nested candidate list. -/
theorem variantCandidates_eq_spec (packageRoot themeFolder : String) :
    variantCandidates packageRoot themeFolder
      = specVariantCandidates packageRoot themeFolder := rfl

/-- The per-entry classification of `find_theme_files` matches the
spec-side qualification and variant-manager selection. -/
theorem find_theme_entry_eq_spec (ex : String → Bool) (base_dir : String)
    (entry : String × List String) :
    (if basenameS entry.1 ≠ "theme" then none
     else if basenameS (dirnameS entry.1) ≠ "theme" then none
     else if ¬ entry.2.contains THEME_FILE_NAME then none
     else
       some (⟨pjoinS entry.1 THEME_FILE_NAME,
              (variantCandidates base_dir entry.1).find? (fun p => ex p)⟩ : ThemeFiles))
      = (if specQualifies entry then
           some ⟨pjoinS entry.1 "theme1.xml", specVariantManager ex base_dir entry.1⟩
         else none) := by
  by_cases h1 : basenameS entry.1 = "theme" <;>
    by_cases h2 : basenameS (dirnameS entry.1) = "theme" <;>
      by_cases h3 : entry.2.contains "theme1.xml" <;>
        simp [specQualifies, specVariantManager, variantCandidates_eq_spec,
          THEME_FILE_NAME, h1, h2, h3]

/-- Claim C4: `find_theme_files` yields exactly the walked directories
named `theme` with parent named `theme` containing `theme1.xml`, each
paired with the first existing variant-manager candidate (canonical or
misspelled name, in the spec's location priority order), absent when no
candidate exists. -/
theorem c4_discovery (ex : String → Bool) (base_dir : String)
    (walkEntries : List (String × List String)) :
    find_theme_files ex base_dir walkEntries = discoverSpec ex base_dir walkEntries := by
  unfold find_theme_files discoverSpec
  congr 1
  funext entry
  exact find_theme_entry_eq_spec ex base_dir entry

/-! ## C5 -/

/-- Claim C5: each `themeVariant` yields exactly one diagnostic — an
ERROR when no family carries its vid, an ERROR naming the conflicting
source parts when several families carry it, and one OK naming the
matched family's name and source part when exactly one does. -/
theorem c5_vid_correspondence (fams : List ThemeFamily) (variant : ThemeVariant)
    (pre post : List ThemeVariant) :
    validate_variant_vids (pre ++ variant :: post) fams
        = pre.map (classifyVariant fams)
          ++ classifyVariant fams variant :: post.map (classifyVariant fams)
      ∧ (lookupVid fams variant.vid = [] →
          classifyVariant fams variant = VidDiag.errorNotFound variant.vid)
      ∧ (∀ f, lookupVid fams variant.vid = [f] →
          classifyVariant fams variant = VidDiag.okMatched variant.vid f.name f.source)
      ∧ (2 ≤ (lookupVid fams variant.vid).length →
          classifyVariant fams variant
            = VidDiag.errorAmbiguous variant.vid
                ((lookupVid fams variant.vid).map (fun h => h.source))) := by
  refine ⟨?_, ?_, ?_, ?_⟩
  · have hne : (pre ++ variant :: post).isEmpty = false := by cases pre <;> rfl
    simp [validate_variant_vids, hne]
  · intro h
    simp [classifyVariant, h]
  · intro f h
    simp [classifyVariant, h]
  · intro h
    rcases hl : lookupVid fams variant.vid with _ | ⟨f, _ | ⟨g, rest⟩⟩
    · rw [hl] at h; simp at h
    · rw [hl] at h; simp at h
    · simp [classifyVariant, hl]

/-- Witness for C5: the spec's orphan scenario, a variant with `vid="9"`
and no family anywhere declaring vid 9. -/
theorem c5_witness :
    validate_variant_vids [vOrphan] [] = [VidDiag.errorNotFound (some "9")] := by
  have h := c5_vid_correspondence [] vOrphan [] []
  have h2 := h.2.1 rfl
  simpa [h2] using h.1

/-! ## C6 -/

/-- Claim C6: the id-agreement check reports a single OK when all
families share one id, and otherwise one `[ERROR]` header plus one group
record per distinct id naming its member parts — exactly one
ERROR-severity diagnostic in total. -/
theorem c6_id_agreement (fams : List ThemeFamily) :
    (∀ i, distinctIds fams = [i] → fams ≠ [] →
        validate_theme_ids fams = [IdDiag.okAllSame i])
      ∧ (2 ≤ (distinctIds fams).length →
          validate_theme_ids fams
              = IdDiag.errorDistinctIds
                :: (distinctIds fams).map
                  (fun i => IdDiag.groupDetail i (sourcesForId fams i))
            ∧ ((validate_theme_ids fams).filter IdDiag.isError).length = 1) := by
  constructor
  · intro i hi hne
    have hisEmpty : fams.isEmpty = false := by
      cases fams
      · exact absurd rfl hne
      · rfl
    simp [validate_theme_ids, hisEmpty, hi]
  · intro h
    have hne : fams ≠ [] := by
      intro hh
      rw [hh] at h
      simp [distinctIds] at h
    have hisEmpty : fams.isEmpty = false := by
      cases fams
      · exact absurd rfl hne
      · rfl
    have hlen : (distinctIds fams).length ≠ 1 := by omega
    have heq : validate_theme_ids fams
        = IdDiag.errorDistinctIds
          :: (distinctIds fams).map (fun i => IdDiag.groupDetail i (sourcesForId fams i)) := by
      simp [validate_theme_ids, hisEmpty, hlen]
    refine ⟨heq, ?_⟩
    rw [heq]
    have hX : ((distinctIds fams).map
        (fun i => IdDiag.groupDetail i (sourcesForId fams i))).filter IdDiag.isError = [] := by
      rw [List.filter_eq_nil_iff]
      intro a ha
      rcases List.mem_map.1 ha with ⟨i, _, rfl⟩
      simp [IdDiag.isError]
    simp [List.filter_cons, IdDiag.isError, hX]

/-- Witness for C6: the spec's scenario with family ids A, A, B across
three `theme1.xml` parts. -/
theorem c6_witness :
    validate_theme_ids famsAAB
        = [IdDiag.errorDistinctIds,
           IdDiag.groupDetail (some "\x7bA\x7d")
             ["/p1/theme/theme/theme1.xml", "/p2/theme/theme/theme1.xml"],
           IdDiag.groupDetail (some "\x7bB\x7d") ["/p3/theme/theme/theme1.xml"]]
      ∧ ((validate_theme_ids famsAAB).filter IdDiag.isError).length = 1 := by
  have h := (c6_id_agreement famsAAB).2 (by decide)
  refine ⟨?_, h.2⟩
  rw [h.1]
  decide

/-! ## C7 -/

/-- The relationship loop emits nothing when every element passes every
check, the Ids are pairwise distinct, and none collides with the ids
already seen. -/
theorem validateRelsLoop_nil (ex : String → Bool) (path : String) (rels : List Element) :
    ∀ ids : List String,
      (∀ rel ∈ rels, relAllOk ex path rel) →
      ((rels.map (fun rel => rel.get "Id")).Nodup) →
      (∀ rel ∈ rels, ∀ r, rel.get "Id" = some r → r ∉ ids) →
      validateRelsLoop ex path rels ids = [] := by
  induction rels with
  | nil => intro ids _ _ _; rfl
  | cons rel rest ih =>
    intro ids hOk hNodup hFresh
    obtain ⟨⟨r, hr, hr0⟩, hty, ⟨t, ht, ht0, hex⟩⟩ := hOk rel (List.mem_cons_self _ _)
    have hrni : r ∉ ids := hFresh rel (List.mem_cons_self _ _) r hr
    have hcontains : ids.contains r = false := by simp [hrni]
    have hElem : relElemDiags ex path rel ids = [] := by
      simp [relElemDiags, relIdDiags, relTypeDiags, relTargetDiags, hr, hr0, hcontains,
        hrni, hty, ht, ht0, hex]
    have hAfter : relIdsAfter (rel.get "Id") ids = ids ++ [r] := by
      simp [relIdsAfter, hr, hr0, hcontains, hrni]
    have hhead : rel.get "Id" ∉ rest.map (fun rel => rel.get "Id") :=
      (List.nodup_cons.1 hNodup).1
    have hRest : validateRelsLoop ex path rest (ids ++ [r]) = [] := by
      apply ih (ids ++ [r])
      · intro x hx
        exact hOk x (List.mem_cons_of_mem _ hx)
      · exact (List.nodup_cons.1 hNodup).2
      · intro x hx r' hr'
        have hn1 : r' ∉ ids := hFresh x (List.mem_cons_of_mem _ hx) r' hr'
        have hn2 : r' ≠ r := by
          intro hrr
          exact hhead (List.mem_map.2 ⟨x, hx, by rw [hr', hr, hrr]⟩)
        simp [List.mem_append, hn1, hn2]
    simp [validateRelsLoop, hElem, hAfter, hRest]

/-- The `<Default>` loop emits nothing when every element passes every
check and extensions are fresh and pairwise distinct. -/
theorem ctDefaultsLoop_nil (ds : List Element) :
    ∀ seen : List String,
      (∀ d ∈ ds, defAllOk d) →
      ((ds.map (fun d => d.get "Extension")).Nodup) →
      (∀ d ∈ ds, ∀ e, d.get "Extension" = some e → e ∉ seen) →
      ctDefaultsLoop ds seen = [] := by
  induction ds with
  | nil => intro seen _ _ _; rfl
  | cons d rest ih =>
    intro seen hOk hNodup hFresh
    obtain ⟨⟨e, he, he0⟩, hct⟩ := hOk d (List.mem_cons_self _ _)
    have heni : e ∉ seen := hFresh d (List.mem_cons_self _ _) e he
    have hcontains : seen.contains e = false := by simp [heni]
    have hhead : d.get "Extension" ∉ rest.map (fun d => d.get "Extension") :=
      (List.nodup_cons.1 hNodup).1
    have hRest : ctDefaultsLoop rest (seen ++ [e]) = [] := by
      apply ih (seen ++ [e])
      · intro x hx
        exact hOk x (List.mem_cons_of_mem _ hx)
      · exact (List.nodup_cons.1 hNodup).2
      · intro x hx e' he'
        have hn1 : e' ∉ seen := hFresh x (List.mem_cons_of_mem _ hx) e' he'
        have hn2 : e' ≠ e := by
          intro hee
          exact hhead (List.mem_map.2 ⟨x, hx, by rw [he', he, hee]⟩)
        simp [List.mem_append, hn1, hn2]
    simp [ctDefaultsLoop, defExtDiags, defCtDiags, defExtSeenAfter, he, he0, hcontains,
      heni, hct, hRest]

/-- The `<Override>` loop emits nothing when every element passes every
check and part names are fresh and pairwise distinct. -/
theorem ctOverridesLoop_nil (ex : String → Bool) (base_dir : String) (os : List Element) :
    ∀ seen : List String,
      (∀ o ∈ os, ovrAllOk ex base_dir o) →
      ((os.map (fun o => o.get "PartName")).Nodup) →
      (∀ o ∈ os, ∀ p, o.get "PartName" = some p → p ∉ seen) →
      ctOverridesLoop ex base_dir os seen = [] := by
  induction os with
  | nil => intro seen _ _ _; rfl
  | cons o rest ih =>
    intro seen hOk hNodup hFresh
    obtain ⟨⟨p, hp, hp0, hpex⟩, hct⟩ := hOk o (List.mem_cons_self _ _)
    have hpni : p ∉ seen := hFresh o (List.mem_cons_self _ _) p hp
    have hcontains : seen.contains p = false := by simp [hpni]
    have hhead : o.get "PartName" ∉ rest.map (fun o => o.get "PartName") :=
      (List.nodup_cons.1 hNodup).1
    have hRest : ctOverridesLoop ex base_dir rest (seen ++ [p]) = [] := by
      apply ih (seen ++ [p])
      · intro x hx
        exact hOk x (List.mem_cons_of_mem _ hx)
      · exact (List.nodup_cons.1 hNodup).2
      · intro x hx p' hp'
        have hn1 : p' ∉ seen := hFresh x (List.mem_cons_of_mem _ hx) p' hp'
        have hn2 : p' ≠ p := by
          intro hpp
          exact hhead (List.mem_map.2 ⟨x, hx, by rw [hp', hp, hpp]⟩)
        simp [List.mem_append, hn1, hn2]
    simp [ctOverridesLoop, ovrPnDiags, ovrCtDiags, ovrSeenAfter, hp, hp0, hcontains,
      hpni, hpex, hct, hRest]

/-- Claim C7: a well-formed part on which every check passes produces a
single synthesized OK diagnostic and zero ERROR diagnostics, for both
the `.rels` validator and the `[Content_Types].xml` validator. -/
theorem c7_clean_part (ex : String → Bool) (path base_dir : String)
    (relsRoot ctRoot : Element)
    (h1 : ∀ rel ∈ relationshipsOf relsRoot, relAllOk ex path rel)
    (h2 : ((relationshipsOf relsRoot).map (fun rel => rel.get "Id")).Nodup)
    (h3 : ∀ d ∈ defaultsOf ctRoot, defAllOk d)
    (h4 : ((defaultsOf ctRoot).map (fun d => d.get "Extension")).Nodup)
    (h5 : ∀ o ∈ overridesOf ctRoot, ovrAllOk ex base_dir o)
    (h6 : ((overridesOf ctRoot).map (fun o => o.get "PartName")).Nodup) :
    validate_rels_file ex path (Except.ok relsRoot) = [RelDiag.okNoErrors]
      ∧ (validate_rels_file ex path (Except.ok relsRoot)).filter RelDiag.isError = []
      ∧ validate_content_types ex base_dir (Except.ok ctRoot) = [CtDiag.okNoErrors]
      ∧ (validate_content_types ex base_dir (Except.ok ctRoot)).filter CtDiag.isError
          = [] := by
  have hrl : validateRelsLoop ex path (relationshipsOf relsRoot) [] = [] :=
    validateRelsLoop_nil ex path _ [] h1 h2 (by simp)
  have hd : ctDefaultsLoop (defaultsOf ctRoot) [] = [] :=
    ctDefaultsLoop_nil _ [] h3 h4 (by simp)
  have ho : ctOverridesLoop ex base_dir (overridesOf ctRoot) [] = [] :=
    ctOverridesLoop_nil ex base_dir _ [] h5 h6 (by simp)
  have hv1 : validate_rels_file ex path (Except.ok relsRoot) = [RelDiag.okNoErrors] := by
    simp [validate_rels_file, hrl]
  have hv2 : validate_content_types ex base_dir (Except.ok ctRoot)
      = [CtDiag.okNoErrors] := by
    simp [validate_content_types, hd, ho]
  refine ⟨hv1, ?_, hv2, ?_⟩
  · rw [hv1]; rfl
  · rw [hv2]; rfl

/-- Witness for C7: a well-formed `.rels` part with zero `Relationship`
elements and an empty `[Content_Types].xml` yield single OK outcomes. -/
theorem c7_witness :
    validate_rels_file (fun _ => true) "/pkg/_rels/.rels"
        (Except.ok (Element.mk "Relationships" [] [])) = [RelDiag.okNoErrors]
      ∧ validate_content_types (fun _ => true) "/pkg"
          (Except.ok (Element.mk "Types" [] [])) = [CtDiag.okNoErrors] := by
  have h := c7_clean_part (fun _ => true) "/pkg/_rels/.rels" "/pkg"
    (Element.mk "Relationships" [] []) (Element.mk "Types" [] [])
    (by simp [relationshipsOf, Element.descendants, descendantsAll])
    (by simp [relationshipsOf, Element.descendants, descendantsAll])
    (by simp [defaultsOf, Element.children]) (by simp [defaultsOf, Element.children])
    (by simp [overridesOf, Element.children]) (by simp [overridesOf, Element.children])
  exact ⟨h.1, h.2.2.1⟩

/-! ## C8 -/

/-- The Id check never produces a missing-file diagnostic. -/
theorem errorFileMissing_not_mem_relIdDiags (s : String) (rid : Option String)
    (ids : List String) : RelDiag.errorFileMissing s ∉ relIdDiags rid ids := by
  unfold relIdDiags
  rcases rid with _ | r
  · simp
  · split
    · simp
    · split <;> simp

/-- The Type check never produces a missing-file diagnostic. -/
theorem errorFileMissing_not_mem_relTypeDiags (s : String) (rid rtype : Option String) :
    RelDiag.errorFileMissing s ∉ relTypeDiags rid rtype := by
  unfold relTypeDiags
  split <;> simp

/-- Claim C8: per relationship the validator appends three independent
check blocks — ERROR when Id is missing, ERROR when it duplicates an
earlier Id, ERROR when Type is missing, ERROR when Target is missing,
and, for a present Target, a missing-file ERROR naming the resolved path
exactly when the referenced file does not exist — with no block
suppressing another. -/
theorem c8_per_relationship_checks (ex : String → Bool) (path : String) (rel : Element)
    (rest : List Element) (ids : List String) :
    (validateRelsLoop ex path (rel :: rest) ids
        = relElemDiags ex path rel ids
          ++ validateRelsLoop ex path rest (relIdsAfter (rel.get "Id") ids))
      ∧ (relElemDiags ex path rel ids
          = relIdDiags (rel.get "Id") ids
            ++ relTypeDiags (rel.get "Id") (rel.get "Type")
            ++ relTargetDiags ex path (rel.get "Id") (rel.get "Target"))
      ∧ (rel.get "Id" = none → RelDiag.errorNoId ∈ relElemDiags ex path rel ids)
      ∧ (∀ r, rel.get "Id" = some r → r ≠ "" → r ∈ ids →
          RelDiag.errorDupId r ∈ relElemDiags ex path rel ids)
      ∧ (rel.get "Type" = none →
          RelDiag.errorNoType (rel.get "Id") ∈ relElemDiags ex path rel ids)
      ∧ (rel.get "Target" = none →
          RelDiag.errorNoTarget (rel.get "Id") ∈ relElemDiags ex path rel ids)
      ∧ (∀ t, rel.get "Target" = some t → t ≠ "" →
          (RelDiag.errorFileMissing (resolve_target_path path t)
              ∈ relElemDiags ex path rel ids
            ↔ ex (resolve_target_path path t) = false)) := by
  refine ⟨rfl, rfl, ?_, ?_, ?_, ?_, ?_⟩
  · intro h
    simp [relElemDiags, relIdDiags, h]
  · intro r hr hr0 hmem
    have hc : ids.contains r = true := by simp [hmem]
    simp [relElemDiags, relIdDiags, hr, hr0, hc, hmem]
  · intro h
    simp [relElemDiags, relTypeDiags, pyFalsy, h]
  · intro h
    simp [relElemDiags, relTargetDiags, h]
  · intro t ht ht0
    have hni := errorFileMissing_not_mem_relIdDiags (resolve_target_path path t)
      (rel.get "Id") ids
    have hnt := errorFileMissing_not_mem_relTypeDiags (resolve_target_path path t)
      (rel.get "Id") (rel.get "Type")
    simp only [relElemDiags, relTargetDiags, ht, List.mem_append, hni, hnt, false_or]
    rw [if_neg ht0]
    cases hex : ex (resolve_target_path path t) <;> simp

/-- Witness for C8: a relationship carrying Id and Target but no Type
gets the missing-Type ERROR. -/
theorem c8_witness :
    RelDiag.errorNoType (some "rId1")
      ∈ relElemDiags (fun _ => true) "/pkg/theme/_rels/a.rels" relNoType [] := by
  have h := c8_per_relationship_checks (fun _ => true) "/pkg/theme/_rels/a.rels"
    relNoType [] []
  exact h.2.2.2.2.1 rfl

/-! ## C9 -/

/-- The ContentType check of an `<Override>` never yields the
duplicate-PartName diagnostic. -/
theorem filter_dup_ovrCtDiags (ct : Option String) (pn : String) :
    (ovrCtDiags ct).filter (fun d => d == CtDiag.errorDupPartName pn) = [] := by
  unfold ovrCtDiags
  split <;> simp

/-- The existence check of an `<Override>` never yields the
duplicate-PartName diagnostic. -/
theorem filter_dup_existBlock (b : Bool) (s pn : String) :
    ((if b then [] else [CtDiag.errorFileMissing s]) : List CtDiag).filter
      (fun d => d == CtDiag.errorDupPartName pn) = [] := by
  cases b <;> simp

/-- Claim C9: a document whose `<Override>` elements are exactly two
sharing one PartName produces exactly one duplicate-PartName ERROR for
it, while the existence check and the ContentType check still run for
each of the two elements. -/
theorem c9_duplicate_partname (ex : String → Bool) (base_dir : String)
    (o1 o2 : Element) (pn : String)
    (h1 : o1.get "PartName" = some pn) (h2 : o2.get "PartName" = some pn)
    (hpn : pn ≠ "") :
    ctOverridesLoop ex base_dir [o1, o2] []
        = ((if ex (resolve_part_path base_dir pn) then []
            else [CtDiag.errorFileMissing (resolve_part_path base_dir pn)])
           ++ ovrCtDiags (o1.get "ContentType"))
          ++ (CtDiag.errorDupPartName pn
              :: ((if ex (resolve_part_path base_dir pn) then []
                   else [CtDiag.errorFileMissing (resolve_part_path base_dir pn)])
                  ++ ovrCtDiags (o2.get "ContentType")))
      ∧ ((ctOverridesLoop ex base_dir [o1, o2] []).filter
          (fun d => d == CtDiag.errorDupPartName pn)).length = 1 := by
  have heq : ctOverridesLoop ex base_dir [o1, o2] []
      = ((if ex (resolve_part_path base_dir pn) then []
          else [CtDiag.errorFileMissing (resolve_part_path base_dir pn)])
         ++ ovrCtDiags (o1.get "ContentType"))
        ++ (CtDiag.errorDupPartName pn
            :: ((if ex (resolve_part_path base_dir pn) then []
                 else [CtDiag.errorFileMissing (resolve_part_path base_dir pn)])
                ++ ovrCtDiags (o2.get "ContentType"))) := by
    simp [ctOverridesLoop, ovrPnDiags, ovrSeenAfter, h1, h2, hpn]
  refine ⟨heq, ?_⟩
  rw [heq]
  simp [List.filter_append, filter_dup_ovrCtDiags, filter_dup_existBlock, List.filter_cons]

/-- Witness for C9 on two concrete `<Override>` elements sharing the
PartName `/ppt/a.xml`. -/
theorem c9_witness :
    ((ctOverridesLoop (fun _ => true) "/pkg" [ovrElemA, ovrElemB] []).filter
      (fun d => d == CtDiag.errorDupPartName "/ppt/a.xml")).length = 1 :=
  (c9_duplicate_partname (fun _ => true) "/pkg" ovrElemA ovrElemB "/ppt/a.xml"
    rfl rfl (by decide)).2

/-! ## C10 -/

/-- Claim C10 (implicit): an absent `vid` is an ordinary matching key —
a variant with no `vid` attribute is matched against the families that
also lack one, so with exactly one such family the variant is reported
OK naming it, not as an orphan; extraction indeed stores `None` for a
missing `vid` attribute. -/
theorem c10_none_vid_matches (fams : List ThemeFamily) (v : ThemeVariant)
    (f : ThemeFamily) (hv : v.vid = none) (hf : lookupVid fams none = [f]) :
    classifyVariant fams v = VidDiag.okMatched none f.name f.source
      ∧ validate_variant_vids [v] fams = [VidDiag.okMatched none f.name f.source]
      ∧ classifyVariant fams v ≠ VidDiag.errorNotFound none
      ∧ ∀ (src : String) (el : Element),
          el.get "vid" = none → (famOfElement src el).vid = none := by
  have hc : classifyVariant fams v = VidDiag.okMatched none f.name f.source := by
    simp [classifyVariant, hv, hf]
  refine ⟨hc, ?_, ?_, ?_⟩
  · simp [validate_variant_vids, hc]
  · rw [hc]
    simp
  · intro src el h
    simp [famOfElement, h]

/-- Witness for C10: a concrete variant without `vid` matched by the
single family without `vid`. -/
theorem c10_witness :
    validate_variant_vids [vNoVid] [famNoVid]
      = [VidDiag.okMatched none (some "Base") "/p/theme/theme/theme1.xml"] :=
  (c10_none_vid_matches [famNoVid] vNoVid famNoVid rfl rfl).2.1
